import Mathlib

/-!
# Verification of the synapvid timeline-synchronization core

A shallow embedding, over exact rational arithmetic, of the timeline core of
the synapvid repository:

* the Temporal Scene Model and its zod validation schemas
  (`src/tests/server/video-assembly-integration.test.ts`, schema module);
* the Playback Time Resolver of `src/app/components/Scene3DViewer.vue`
  (`updateSceneAtTime`, `applyEventAnimation`);
* the Narration Timing Resolver and the Sync Validator of
  `src/app/pages/preview.vue` (`synthesizeNarration`, `validateSync`);
* the subtitle generator of `src/app/composables/useVideoAssembly.ts`
  (`generateSubtitles`, `formatVTTTime`) and its server twin
  `generateWebVTT` of `src/server/api/video/assemble.post.ts`.

JavaScript numbers are modelled as rationals (every constant appearing in the
code and in the properties below is exactly representable, so the model is
exact on the inputs of interest); JavaScript objects iterated with
`Object.entries` are modelled as insertion-ordered association lists; the
truthiness coercion `x || d` on numbers (which replaces both `undefined` and
`0` by the default `d`) is modelled by `jsOr`.
-/

namespace Synapvid

/-! ## Data model

`VisualEventSchema` fields that the timing core reads.  The action-specific
parameter bag `params : Record<string, any>` is modelled by the three keys the
renderer's animation code reads (`path`, `startX`, `endX`); the remaining
optional payload fields (`text`, `latex`, `color`, `position`, `material`) are
never read by the timing core and carry no validation constraint beyond their
type, so they are omitted from the embedding. -/

structure EventParams where
  path : Option String := none
  startX : Option ℚ := none
  endX : Option ℚ := none
deriving DecidableEq, Repr

/-- Schema `VisualEventSchema`: `t` (scene-relative seconds, schema requires `≥ 0`),
an open `action` string, optional `params`, optional `duration` seconds. -/
structure VisualEvent where
  t : ℚ
  action : String
  params : Option EventParams := none
  duration : Option ℚ := none
deriving DecidableEq, Repr

/-- Schema `SceneSchema`: `type` string, `start`/`end` seconds, narration chunks,
visual events.  The source field named `end` is written `end_` (a Lean
keyword). -/
structure Scene where
  type : String
  start : ℚ
  end_ : ℚ
  narration : List String
  events : List VisualEvent
deriving DecidableEq, Repr

/-- Schema `AudioSegmentSchema`: an MP3 path and absolute start/end seconds. -/
structure AudioSegment where
  path : String
  start : ℚ
  end_ : ℚ
deriving DecidableEq, Repr

/-- Schema `StyleConfigSchema`, reduced to the one field the timing core reads
(`voice`, passed through to text-to-speech); the colour/typography/transition
fields are opaque to every algorithm modelled here and carry no constraint
that can reject a well-typed value. -/
structure StyleConfig where
  voice : String
deriving DecidableEq, Repr

/-- Schema `VideoSpecSchema`: the root entity.  `audioSegments` is an
insertion-ordered association list, modelling the JavaScript object keyed by
chunk id. -/
structure VideoSpec where
  duration_target : ℚ
  scenes : List Scene
  style : StyleConfig
  audioSegments : Option (List (String × AudioSegment)) := none
deriving DecidableEq, Repr

/-- JavaScript `x || d` on an optional number: `undefined` and the falsy
number `0` both fall back to the default. -/
def jsOr : Option ℚ → ℚ → ℚ
  | none, d => d
  | some x, d => if x = 0 then d else x

/-! ## Playback Time Resolver (`Scene3DViewer.vue`)

`updateSceneAtTime` mutates the ref `animatedPuckPosition`; the embedding
makes that state explicit: the function takes the position the ref holds
before the call and returns the position it holds afterwards. -/

/-- The reset/rest puck position `[0, 0.1, 0]`. -/
def restPos : ℚ × ℚ × ℚ := (0, 1/10, 0)

/-- Source `event.duration || 1.0`, the defaulted active-window length. -/
def effDur (e : VisualEvent) : ℚ := jsOr e.duration 1

/-- The active-window test of the `activeEvents` filter:
`sceneRelativeTime >= event.t && sceneRelativeTime <= event.t + duration`. -/
def activeAt (rt : ℚ) (e : VisualEvent) : Bool :=
  decide (e.t ≤ rt) && decide (rt ≤ e.t + effDur e)

/-- Source `Math.max(0, Math.min(1, (sceneRelativeTime - eventTime) / eventDuration))`. -/
def progressAt (rt : ℚ) (e : VisualEvent) : ℚ :=
  max 0 (min 1 ((rt - e.t) / effDur e))

/-- Source `applyEventAnimation(event, progress)`: for `animate_puck_3d` it writes a
new puck position (linear interpolation `startX → endX` on a straight-line
path, default sweep `progress * 10` otherwise); every other action leaves the
puck position untouched. -/
def applyEventAnimation (pos : ℚ × ℚ × ℚ) (event : VisualEvent)
    (progress : ℚ) : ℚ × ℚ × ℚ :=
  if event.action = "animate_puck_3d" then
    let startX := jsOr (event.params.bind EventParams.startX) 0
    let endX := jsOr (event.params.bind EventParams.endX) 10
    if event.params.bind EventParams.path = some "straight_line" then
      (startX + (endX - startX) * progress, 1/10, 0)
    else
      (progress * 10, 1/10, 0)
  else pos

/-- Source `updateSceneAtTime(time)` of `Scene3DViewer.vue`: convert the global time
to scene-relative time, clamp before scene start to the rest position,
otherwise apply all active events in order; when no event is active, look at
the last `animate_puck_3d` event of the events array and hold it at progress
`1.0` when its window has elapsed, else reset to the rest position. -/
def updateSceneAtTime (scene : Scene) (time : ℚ) (pos : ℚ × ℚ × ℚ) :
    ℚ × ℚ × ℚ :=
  let sceneStart := scene.start
  let sceneRelativeTime := time - sceneStart
  if sceneRelativeTime ≤ 0 then restPos
  else
    let activeEvents := scene.events.filter (activeAt sceneRelativeTime)
    if activeEvents.isEmpty then
      let puckEvents := scene.events.filter
        (fun e => e.action = "animate_puck_3d")
      match puckEvents.getLast? with
      | some lastPuckEvent =>
          if lastPuckEvent.t + effDur lastPuckEvent < sceneRelativeTime then
            applyEventAnimation pos lastPuckEvent 1
          else restPos
      | none => restPos
    else
      activeEvents.foldl
        (fun p e => applyEventAnimation p e (progressAt sceneRelativeTime e))
        pos

/-! ## Spec Validator (zod schemas of the schema module)

`parse` on the zod schemas either succeeds or reports issues; over the
well-typed structures above, acceptance is the conjunction of every `min`,
`max`, `enum` and `refine` constraint of `VisualEventSchema`, `SceneSchema`
and `VideoSpecSchema`. -/

/-- Constraint of `VisualEventSchema`: `t: z.number().min(0)`. -/
def visualEventValid (e : VisualEvent) : Bool :=
  decide (0 ≤ e.t)

/-- Enum `SceneTypeSchema = z.enum(['intro', 'skill1', 'skill2', 'summary'])`. -/
def sceneTypeValid (ty : String) : Bool :=
  ty = "intro" || ty = "skill1" || ty = "skill2" || ty = "summary"

/-- Constraints of `SceneSchema`: the field constraints (`type` in the enum,
`start: z.number().min(0)`, `end: z.number().min(0)`, valid events) together
with its `refine` (`scene.end > scene.start`). -/
def sceneValid (s : Scene) : Bool :=
  sceneTypeValid s.type && decide (0 ≤ s.start) && decide (0 ≤ s.end_) &&
    s.events.all visualEventValid && decide (s.start < s.end_)

/-- Source `[...spec.scenes].sort((a, b) => a.start - b.start)`: a stable sort by
`start` (JavaScript `Array.prototype.sort` is stable). -/
def scenesSortedByStart (l : List Scene) : List Scene :=
  l.mergeSort (fun a b => decide (a.start ≤ b.start))

/-- The loop of the first `VideoSpecSchema` refine over the sorted scenes:
fail when `sortedScenes[i].end > sortedScenes[i + 1].start`. -/
def pairwiseNoOverlap : List Scene → Bool
  | a :: b :: rest => decide (a.end_ ≤ b.start) && pairwiseNoOverlap (b :: rest)
  | _ => true

/-- The second `VideoSpecSchema` refine:
`scenes[scenes.length - 1].end <= duration_target + 5` (vacuously true for an
empty scene list). -/
def lastSceneWithinTarget (s : VideoSpec) : Bool :=
  match s.scenes.getLast? with
  | none => true
  | some lastScene => decide (lastScene.end_ ≤ s.duration_target + 5)

/-- Acceptance of `VideoSpecSchema.parse`: `duration_target` within `[80, 180]`,
at least one scene, every scene valid, no overlap among the scenes sorted by
`start`, and the last scene within the 5-second buffer of the target. -/
def videoSpecValid (s : VideoSpec) : Bool :=
  decide (80 ≤ s.duration_target) && decide (s.duration_target ≤ 180) &&
    decide (1 ≤ s.scenes.length) && s.scenes.all sceneValid &&
    pairwiseNoOverlap (scenesSortedByStart s.scenes) &&
    lastSceneWithinTarget s

/-- The five temporal rules exactly as the specification document lists them
(duration bounds, non-empty scenes, `end > start` per scene, non-overlap of
the start-sorted scenes, last scene within the buffer), written from the
specification's words for comparison with `videoSpecValid`. -/
def specFiveRules (s : VideoSpec) : Bool :=
  decide (80 ≤ s.duration_target) && decide (s.duration_target ≤ 180) &&
    !s.scenes.isEmpty && s.scenes.all (fun sc => decide (sc.start < sc.end_)) &&
    pairwiseNoOverlap (scenesSortedByStart s.scenes) &&
    lastSceneWithinTarget s

/-! ## Sync Validator (`validateSync` of `preview.vue`)

The JavaScript function walks `Object.entries(segments)` — the map's
insertion order — pairwise; it never sorts.  The human-readable diagnostic
strings it pushes are modelled by a structured diagnostic carrying the same
data (the two chunk ids and the magnitude). -/

/-- One diagnostic pushed into `errors`: either
`Overlap detected: id1 and id2 (…ms)` or `Large gap detected: id1 to id2 (…s)`. -/
inductive SyncDiag where
  | overlap (id1 id2 : String) (magnitude : ℚ)
  | largeGap (id1 id2 : String) (gap : ℚ)
deriving DecidableEq, Repr

/-- The adjacent-pair loop of `validateSync`, over the entry list in its
given (insertion) order: `gap = seg2.start - seg1.end`; `gap < 0` is an
overlap, `gap > 2.0` a large gap, anything in `[0, 2.0]` silent. -/
def syncDiags : List (String × AudioSegment) → List SyncDiag
  | (id1, seg1) :: (id2, seg2) :: rest =>
      let gap := seg2.start - seg1.end_
      (if gap < 0 then [SyncDiag.overlap id1 id2 |gap|]
       else if gap > 2 then [SyncDiag.largeGap id1 id2 gap]
       else []) ++ syncDiags ((id2, seg2) :: rest)
  | _ => []

/-- Source `validateSync(segments)`: `{valid: errors.length === 0, errors}`. -/
def validateSync (segments : List (String × AudioSegment)) :
    Bool × List SyncDiag :=
  let errors := syncDiags segments
  (errors.isEmpty, errors)

/-! ## Narration Timing Resolver (`synthesizeNarration` of `preview.vue`)

The text-to-speech collaborator is an oracle `tts` mapping the flattened call
index, the chunk text and the voice to either `some (path, durationSeconds)`
or `none` (a synthesis failure: the HTTP call threw or returned nothing).
The resolver awaits the chunks strictly in order, so the oracle's index is
the call order.  A failure makes the JavaScript function set `error.value`
to a message naming the chunk and return `null` with the exposed
`audioSegments` ref still holding the empty map assigned on entry; the
embedding returns `Except.error message` for that outcome. -/

/-- The chunk key `scene{sceneIndex}_chunk{chunkIndex}`. -/
def chunkId (sceneIndex chunkIndex : Nat) : String :=
  "scene" ++ toString sceneIndex ++ "_chunk" ++ toString chunkIndex

/-- The `allChunks` flattening: every `(sceneIndex, chunkIndex, text)` in
scene order, then chunk order. -/
def allChunks (spec : VideoSpec) : List (Nat × Nat × String) :=
  (spec.scenes.enum.map
    (fun sc => sc.2.narration.enum.map (fun ch => (sc.1, ch.1, ch.2)))).flatten

/-- The sequential loop of `synthesizeNarration`: cursor `currentTime`
starting at `0`; each chunk yields the segment
`{path, start: currentTime, end: currentTime + duration}` and advances the
cursor by `duration + 1.5` (the pause padding); the first failure aborts with
`Failed to synthesize chunk {chunkId}`. -/
def synthChunks (tts : Nat → String → String → Option (String × ℚ))
    (voice : String) :
    List (Nat × Nat × String) → Nat → ℚ →
      Except String (List (String × AudioSegment))
  | [], _, _ => .ok []
  | (sceneIndex, chunkIndex, text) :: rest, i, currentTime =>
      match tts i text voice with
      | none => .error
          ("Failed to synthesize chunk " ++ chunkId sceneIndex chunkIndex)
      | some (path, d) =>
          match synthChunks tts voice rest (i + 1) (currentTime + d + 3/2) with
          | .error msg => .error msg
          | .ok segs =>
              .ok ((chunkId sceneIndex chunkIndex,
                    ⟨path, currentTime, currentTime + d⟩) :: segs)

/-- Source `synthesizeNarration(spec)`: flatten the chunks of all scenes and run the
sequential synthesis loop from index `0` and cursor `0`, with the spec's
voice. -/
def synthesizeNarration (spec : VideoSpec)
    (tts : Nat → String → String → Option (String × ℚ)) :
    Except String (List (String × AudioSegment)) :=
  synthChunks tts spec.style.voice (allChunks spec) 0 0

/-- The `audioSegments` ref after `synthesizeNarration` returns: it is
cleared to the empty map on entry and assigned only when every chunk
succeeded. -/
def audioSegmentsAfter (spec : VideoSpec)
    (tts : Nat → String → String → Option (String × ℚ)) :
    List (String × AudioSegment) :=
  match synthesizeNarration spec tts with
  | .ok segs => segs
  | .error _ => []

/-! ## Assembly Timing Generator (`generateSubtitles`, `formatVTTTime`)

String building follows the JavaScript template literals; number-to-string
conversion of the floored integer fields matches JavaScript `toString` on
integers. -/

/-- JavaScript's truncation toward zero, as used by the `%` operator. -/
def jsTrunc (q : ℚ) : ℤ :=
  if q < 0 then -⌊-q⌋ else ⌊q⌋

/-- JavaScript `a % b`: the remainder with the dividend's sign,
`a - b * trunc(a / b)`. -/
def jsMod (a b : ℚ) : ℚ := a - b * (jsTrunc (a / b) : ℚ)

/-- JavaScript `String.prototype.padStart(n, c)`. -/
def padStart (s : String) (n : Nat) (c : Char) : String :=
  if n ≤ s.length then s
  else String.mk (List.replicate (n - s.length) c) ++ s

/-- Source `formatVTTTime(seconds)`: `HH:MM:SS.mmm` with
`hours = floor(seconds / 3600)`, `minutes = floor((seconds % 3600) / 60)`,
`secs = floor(seconds % 60)`, `ms = floor((seconds % 1) * 1000)`, each padded
with zeroes. -/
def formatVTTTime (seconds : ℚ) : String :=
  let hours := ⌊seconds / 3600⌋
  let minutes := ⌊jsMod seconds 3600 / 60⌋
  let secs := ⌊jsMod seconds 60⌋
  let ms := ⌊jsMod seconds 1 * 1000⌋
  padStart (toString hours) 2 '0' ++ ":" ++
    padStart (toString minutes) 2 '0' ++ ":" ++
    padStart (toString secs) 2 '0' ++ "." ++
    padStart (toString ms) 3 '0'

/-- Source `generateSubtitles(spec)` of `useVideoAssembly.ts`: start from
`WEBVTT\n\n` and, for each scene and each narration chunk, append the cue id
line, the time-range line and the text block, with
`chunkDuration = (scene.end - scene.start) / scene.narration.length`,
`start = scene.start + chunkIndex * chunkDuration` and
`end = start + chunkDuration`. -/
def generateSubtitles (spec : VideoSpec) : String :=
  spec.scenes.enum.foldl
    (fun vtt sc =>
      sc.2.narration.enum.foldl
        (fun vtt ch =>
          let chunkDuration :=
            (sc.2.end_ - sc.2.start) / (sc.2.narration.length : ℚ)
          let start := sc.2.start + (ch.1 : ℚ) * chunkDuration
          let «end» := start + chunkDuration
          vtt ++ (toString (sc.1 + 1) ++ "." ++ toString (ch.1 + 1) ++ "\n")
              ++ (formatVTTTime start ++ " --> " ++ formatVTTTime «end» ++ "\n")
              ++ (ch.2 ++ "\n\n"))
        vtt)
    "WEBVTT\n\n"

/-- Source `generateWebVTT(spec)` of `assemble.post.ts`: textually the same
derivation as `generateSubtitles`. -/
def generateWebVTT (spec : VideoSpec) : String :=
  spec.scenes.enum.foldl
    (fun vtt sc =>
      sc.2.narration.enum.foldl
        (fun vtt ch =>
          let chunkDuration :=
            (sc.2.end_ - sc.2.start) / (sc.2.narration.length : ℚ)
          let start := sc.2.start + (ch.1 : ℚ) * chunkDuration
          let «end» := start + chunkDuration
          vtt ++ (toString (sc.1 + 1) ++ "." ++ toString (ch.1 + 1) ++ "\n")
              ++ (formatVTTTime start ++ " --> " ++ formatVTTTime «end» ++ "\n")
              ++ (ch.2 ++ "\n\n"))
        vtt)
    "WEBVTT\n\n"

/-- Concatenation of a list of strings (for stating what the cue folds
produce). -/
def strJoin : List String → String
  | [] => ""
  | s :: rest => s ++ strJoin rest

/-- The subtitle cue for scene index/scene pair `sc` and chunk index/text
pair `ch`, as the claim derives it: id `{sceneIndex+1}.{chunkIndex+1}`,
absolute start `scene.start + chunkIndex * (scene.end - scene.start) / n`,
end one chunk-duration later, both formatted by `formatVTTTime` on a
`start --> end` range line, followed by the chunk text. -/
def cueString (sc : Nat × Scene) (ch : Nat × String) : String :=
  let chunkDuration := (sc.2.end_ - sc.2.start) / (sc.2.narration.length : ℚ)
  let start := sc.2.start + (ch.1 : ℚ) * chunkDuration
  toString (sc.1 + 1) ++ "." ++ toString (ch.1 + 1) ++ "\n"
    ++ formatVTTTime start ++ " --> "
    ++ formatVTTTime (start + chunkDuration) ++ "\n"
    ++ ch.2 ++ "\n\n"

/-- The subtitle cue list as the claim derives it: cues in scene order then
chunk order. -/
def claimCues (spec : VideoSpec) : List String :=
  (spec.scenes.enum.map
    (fun sc => sc.2.narration.enum.map (cueString sc))).flatten

/-- Concatenation of adjacent-pair diagnostics as the claim words them: an
overlap error exactly when the next segment's start is strictly before the
previous segment's end (magnitude the overlap duration), a large-gap
diagnostic exactly when the gap exceeds `2.0` seconds, nothing otherwise. -/
def claimPairDiag (a b : String × AudioSegment) : List SyncDiag :=
  if b.2.start < a.2.end_ then
    [SyncDiag.overlap a.1 b.1 (a.2.end_ - b.2.start)]
  else if b.2.start - a.2.end_ > 2 then
    [SyncDiag.largeGap a.1 b.1 (b.2.start - a.2.end_)]
  else []

/-- The claim's diagnostics over a segment list: every adjacent pair in the
order given. -/
def claimDiags : List (String × AudioSegment) → List SyncDiag
  | a :: b :: rest => claimPairDiag a b ++ claimDiags (b :: rest)
  | _ => []

/-- The Sync Validator as claim C3 words it: the diagnostics computed over
the segments sorted by `start` (written from the claim for comparison with
`validateSync`, which never sorts). -/
def validateSyncSortedSpec (segments : List (String × AudioSegment)) :
    Bool × List SyncDiag :=
  let sorted := segments.mergeSort (fun a b => decide (a.2.start ≤ b.2.start))
  (claimDiags sorted |>.isEmpty, claimDiags sorted)

/-! ## The zero-duration rewriting used by claim C10 -/

/-- Replace a literal `duration: 0` by an absent duration field. -/
def zeroDurToNone (e : VisualEvent) : VisualEvent :=
  { e with duration := if e.duration = some 0 then none else e.duration }

/-- Mapping `zeroDurToNone` over every event of a scene. -/
def sceneZeroDurToNone (s : Scene) : Scene :=
  { s with events := s.events.map zeroDurToNone }

/-! ## Concrete scenes and events used by the instances below -/

/-- A straight-line puck path from `x = 0` to `x = 10`. -/
def straightParams : EventParams :=
  { path := some "straight_line", startX := some 0, endX := some 10 }

/-- The specification's hold-last-state example event:
`{t: 0, action: "move"/puck animation, duration: 5}` interpolating position
`0 → 10`. -/
def holdEvent : VisualEvent :=
  { t := 0, action := "animate_puck_3d", params := some straightParams,
    duration := some 5 }

/-- A scene containing only `holdEvent`. -/
def holdScene : Scene :=
  { type := "intro", start := 0, end_ := 20, narration := [],
    events := [holdEvent] }

/-- An early puck event with window `[0, 1]`, path `0 → 10`. -/
def earlyPuckEvent : VisualEvent :=
  { t := 0, action := "animate_puck_3d", params := some straightParams,
    duration := some 1 }

/-- A late puck event with window `[10, 11]`. -/
def latePuckEvent : VisualEvent :=
  { t := 10, action := "animate_puck_3d", params := some straightParams,
    duration := some 1 }

/-- A scene whose events array holds an elapsed puck event followed by a
not-yet-started one. -/
def twoPuckScene : Scene :=
  { type := "intro", start := 0, end_ := 20, narration := [],
    events := [earlyPuckEvent, latePuckEvent] }

/-- A vector event with window `[5, 6]`; its animation never writes the puck
position. -/
def vectorEvent : VisualEvent :=
  { t := 5, action := "animate_vector_3d", params := none,
    duration := some 1 }

/-- A scene with one puck event (window `[0, 1]`) and one vector event
(window `[5, 6]`). -/
def puckVectorScene : Scene :=
  { type := "intro", start := 0, end_ := 20, narration := [],
    events := [earlyPuckEvent, vectorEvent] }

/-- An event whose `duration` field is present and equal to `0`. -/
def zeroDurEvent : VisualEvent :=
  { t := 2, action := "animate_puck_3d", params := none, duration := some 0 }

/-- The default style of every concrete spec below. -/
def defaultStyle : StyleConfig := { voice := "alloy" }

/-- A built-in-type scene spanning the whole target with one narration chunk
and one event; part of `acceptedSpec`. -/
def introScene : Scene :=
  { type := "intro", start := 0, end_ := 100, narration := ["hello"],
    events := [{ t := 0, action := "animate_puck_3d" }] }

/-- A spec the validator accepts. -/
def acceptedSpec : VideoSpec :=
  { duration_target := 100, scenes := [introScene], style := defaultStyle }

/-- A spec satisfying every temporal rule whose single scene carries the
custom type `outro`, outside the built-in categories. -/
def customTypeSpec : VideoSpec :=
  { duration_target := 100,
    scenes := [{ type := "outro", start := 0, end_ := 100, narration := [],
                 events := [] }],
    style := defaultStyle }

/-- A spec satisfying every temporal rule whose single scene starts at the
negative time `-1`. -/
def negativeStartSpec : VideoSpec :=
  { duration_target := 100,
    scenes := [{ type := "intro", start := -1, end_ := 100, narration := [],
                 events := [] }],
    style := defaultStyle }

/-- The specification's rejection scenario: `durationTarget = 50`. -/
def lowDurationSpec : VideoSpec :=
  { duration_target := 50,
    scenes := [{ type := "intro", start := 0, end_ := 50, narration := [],
                 events := [] }],
    style := defaultStyle }

/-- The scene field constraints of `SceneSchema` that are not among the five
temporal rules of the specification: the closed type enum, non-negative
`start` and `end`, and non-negative event offsets. -/
def sceneStructOk (sc : Scene) : Bool :=
  sceneTypeValid sc.type && decide (0 ≤ sc.start) && decide (0 ≤ sc.end_) &&
    sc.events.all visualEventValid

/-- A segment map whose insertion order disagrees with its `start` order:
`a = [5, 6]` inserted before `b = [0, 1]`. -/
def unsortedSegs : List (String × AudioSegment) :=
  [("a", ⟨"a.mp3", 5, 6⟩), ("b", ⟨"b.mp3", 0, 1⟩)]

/-- The claim C7 overlap vector: `{chunk1: [0, 2.0], chunk2: [1.5, 3.0]}`. -/
def overlapSegs : List (String × AudioSegment) :=
  [("chunk1", ⟨"1.mp3", 0, 2⟩), ("chunk2", ⟨"2.mp3", 3/2, 3⟩)]

/-- The claim C7 well-gapped vector:
`{chunk1: [0, 2.0], chunk2: [3.5, 5.0], chunk3: [6.5, 8.0]}`. -/
def gapSegs : List (String × AudioSegment) :=
  [("chunk1", ⟨"1.mp3", 0, 2⟩), ("chunk2", ⟨"2.mp3", 7/2, 5⟩),
   ("chunk3", ⟨"3.mp3", 13/2, 8⟩)]

/-- The specification's resolution scenario: one scene with the two chunks
`Welcome` and `Let us begin`. -/
def scenarioSpec : VideoSpec :=
  { duration_target := 100,
    scenes := [{ type := "intro", start := 0, end_ := 5,
                 narration := ["Welcome", "Let us begin"], events := [] }],
    style := defaultStyle }

/-- A synthesis oracle returning durations `2.0` then `1.5` seconds. -/
def scenarioTts : Nat → String → String → Option (String × ℚ) :=
  fun i _text _voice =>
    if i = 0 then some ("audio0.mp3", 2) else some ("audio1.mp3", 3/2)

/-- A synthesis oracle failing on every chunk after the first. -/
def failingTts : Nat → String → String → Option (String × ℚ) :=
  fun i _text _voice => if i = 0 then some ("audio0.mp3", 2) else none

/-! ## Playback Time Resolver lemmas -/

/-- A puck animation overwrites the puck position: its output does not depend
on the position before the call. -/
theorem applyEventAnimation_puck (p q : ℚ × ℚ × ℚ) (e : VisualEvent) (x : ℚ)
    (h : e.action = "animate_puck_3d") :
    applyEventAnimation p e x = applyEventAnimation q e x := by
  simp [applyEventAnimation, h]

/-- Any other action leaves the puck position untouched. -/
theorem applyEventAnimation_nonpuck (p : ℚ × ℚ × ℚ) (e : VisualEvent) (x : ℚ)
    (h : e.action ≠ "animate_puck_3d") :
    applyEventAnimation p e x = p := by
  simp [applyEventAnimation, h]

/-- Folding the active events over two different initial positions gives the
same result as soon as some active event is a puck animation. -/
theorem foldl_applyEvent_indep (rt : ℚ) (l : List VisualEvent) :
    ∀ p q : ℚ × ℚ × ℚ,
      (∃ e ∈ l, e.action = "animate_puck_3d") →
      l.foldl (fun acc e => applyEventAnimation acc e (progressAt rt e)) p =
        l.foldl (fun acc e => applyEventAnimation acc e (progressAt rt e)) q := by
  induction l with
  | nil => intro p q h; simp at h
  | cons e rest ih =>
      intro p q h
      simp only [List.foldl_cons]
      by_cases hrest : ∃ a ∈ rest, a.action = "animate_puck_3d"
      · exact ih _ _ hrest
      · have hpk : e.action = "animate_puck_3d" := by
          rcases h with ⟨a, ha, hp⟩
          rcases List.mem_cons.mp ha with rfl | hmem
          · exact hp
          · exact absurd ⟨a, hmem, hp⟩ hrest
        rw [applyEventAnimation_puck p q e (progressAt rt e) hpk]

/-- The event the hold branch examines is drawn from the
`animate_puck_3d` filter, so it is a puck event. -/
theorem getLast?_puckFilter_action (l : List VisualEvent) (le : VisualEvent)
    (h : (l.filter (fun e => e.action = "animate_puck_3d")).getLast? = some le) :
    le.action = "animate_puck_3d" := by
  have hmem := List.mem_of_mem_getLast? h
  exact of_decide_eq_true (List.mem_filter.mp hmem).2

/-- Mapping a function over a list keeps emptiness. -/
theorem listIsEmpty_map {α β : Type} (f : α → β) (l : List α) :
    (l.map f).isEmpty = l.isEmpty := by
  cases l <;> rfl

/-- Projections of `zeroDurToNone` other than `duration` are unchanged. -/
theorem zeroDurToNone_t (e : VisualEvent) : (zeroDurToNone e).t = e.t := rfl

/-- The action is unchanged by `zeroDurToNone`. -/
theorem zeroDurToNone_action (e : VisualEvent) :
    (zeroDurToNone e).action = e.action := rfl

/-- A present-but-zero duration and an absent one give the same defaulted
window length. -/
theorem effDur_zeroDurToNone (e : VisualEvent) :
    effDur (zeroDurToNone e) = effDur e := by
  rcases e with ⟨t, a, pr, d⟩
  rcases d with _ | d
  · rfl
  · by_cases hd : d = 0 <;> simp [zeroDurToNone, effDur, jsOr, hd]

/-- The active-window test is unchanged by `zeroDurToNone`. -/
theorem activeAt_zeroDurToNone (rt : ℚ) (e : VisualEvent) :
    activeAt rt (zeroDurToNone e) = activeAt rt e := by
  rw [activeAt, activeAt, effDur_zeroDurToNone, zeroDurToNone_t]

/-- The progress fraction is unchanged by `zeroDurToNone`. -/
theorem progressAt_zeroDurToNone (rt : ℚ) (e : VisualEvent) :
    progressAt rt (zeroDurToNone e) = progressAt rt e := by
  rw [progressAt, progressAt, effDur_zeroDurToNone, zeroDurToNone_t]

/-- The animation application never reads the duration field. -/
theorem applyEventAnimation_zeroDurToNone (p : ℚ × ℚ × ℚ) (e : VisualEvent)
    (x : ℚ) : applyEventAnimation p (zeroDurToNone e) x =
      applyEventAnimation p e x := rfl

/-- Erasing every literal zero duration of a scene leaves the resolver's
output unchanged at every time and prior position. -/
theorem updateSceneAtTime_zeroDurToNone (s : Scene) (time : ℚ)
    (p : ℚ × ℚ × ℚ) :
    updateSceneAtTime (sceneZeroDurToNone s) time p =
      updateSceneAtTime s time p := by
  have hact : (activeAt (time - s.start) ∘ zeroDurToNone) =
      activeAt (time - s.start) := funext (activeAt_zeroDurToNone _)
  have hpk : ((fun e : VisualEvent => decide (e.action = "animate_puck_3d")) ∘
      zeroDurToNone) =
      (fun e : VisualEvent => decide (e.action = "animate_puck_3d")) :=
    funext (fun e => by rw [Function.comp_apply, zeroDurToNone_action])
  have hfold : (fun (acc : ℚ × ℚ × ℚ) (e : VisualEvent) =>
      applyEventAnimation acc (zeroDurToNone e)
        (progressAt (time - s.start) (zeroDurToNone e))) =
      (fun acc e => applyEventAnimation acc e (progressAt (time - s.start) e)) := by
    funext acc e
    rw [progressAt_zeroDurToNone, applyEventAnimation_zeroDurToNone]
  unfold updateSceneAtTime sceneZeroDurToNone
  dsimp only
  rw [List.filter_map, List.filter_map, hact, hpk, List.getLast?_map,
    List.foldl_map, hfold, listIsEmpty_map]
  rcases hle : (List.filter (fun e => decide (e.action = "animate_puck_3d"))
      s.events).getLast? with _ | le
  · rw [hle]
    rfl
  · rw [hle]
    simp only [Option.map_some']
    rw [zeroDurToNone_t, effDur_zeroDurToNone]
    split
    · rfl
    · split
      · split
        · rw [applyEventAnimation_zeroDurToNone]
        · rfl
      · rfl

/-! ## Claim C1 — hold-last-state -/

/-- Claim C1, amended: with a positive scene-relative time inside no event's
active window, the resolver inspects only the last `animate_puck_3d` event of
the events array; when that event's window has elapsed it applies it at
progress `1.0`, freezing the final state.  In particular the specification's
one-event example (`{t: 0, duration: 5}` interpolating `0 → 10`, queried at
scene-relative time `10`) yields position `10`, not the rest position `0`.
(As originally stated — apply the most recent elapsed event of the relevant
kind whenever one exists — the claim fails; see the counterexample.) -/
theorem claim_C1_hold_last_state :
    (∀ (scene : Scene) (time : ℚ) (pos : ℚ × ℚ × ℚ) (le : VisualEvent),
      0 < time - scene.start →
      scene.events.filter (activeAt (time - scene.start)) = [] →
      (scene.events.filter
        (fun e => e.action = "animate_puck_3d")).getLast? = some le →
      le.t + effDur le < time - scene.start →
      updateSceneAtTime scene time pos = applyEventAnimation pos le 1) ∧
    updateSceneAtTime holdScene 10 restPos = (10, 1/10, 0) := by
  constructor
  · intro scene time pos le h0 hl hle hend
    have h0' : ¬ time - scene.start ≤ 0 := not_le.mpr h0
    simp [updateSceneAtTime, h0', hl, hle, hend]
  · norm_num [updateSceneAtTime, holdScene, holdEvent, straightParams, restPos,
      activeAt, effDur, jsOr, applyEventAnimation, progressAt, List.filter]

/-- Claim C1, witness: the hold rule applied to the one-event example scene
at scene-relative time `10`. -/
theorem claim_C1_witness :
    updateSceneAtTime holdScene 10 restPos =
      applyEventAnimation restPos holdEvent 1 :=
  claim_C1_hold_last_state.1 holdScene 10 restPos holdEvent
    (by norm_num [holdScene])
    (by norm_num [holdScene, holdEvent, activeAt, effDur, jsOr, List.filter])
    (by norm_num [holdScene, holdEvent, List.filter])
    (by norm_num [holdScene, holdEvent, effDur, jsOr])

/-- Claim C1, counterexample to the original statement: in `twoPuckScene` at
scene-relative time `5`, no event is active and the puck event with window
`[0, 1]` (final position `10`) has elapsed, yet the resolver returns the rest
position because the *last* puck event of the array (window `[10, 11]`) has
not elapsed. -/
theorem claim_C1_counterexample :
    earlyPuckEvent ∈ twoPuckScene.events ∧
    earlyPuckEvent.action = "animate_puck_3d" ∧
    earlyPuckEvent.t + effDur earlyPuckEvent < 5 - twoPuckScene.start ∧
    twoPuckScene.events.filter (activeAt (5 - twoPuckScene.start)) = [] ∧
    updateSceneAtTime twoPuckScene 5 restPos = restPos ∧
    applyEventAnimation restPos earlyPuckEvent 1 = (10, 1/10, 0) ∧
    restPos ≠ ((10 : ℚ), (1/10 : ℚ), (0 : ℚ)) := by
  refine ⟨?_, ?_, ?_, ?_, ?_, ?_, ?_⟩ <;>
    norm_num [updateSceneAtTime, twoPuckScene, earlyPuckEvent, latePuckEvent,
      straightParams, restPos, activeAt, effDur, jsOr, applyEventAnimation,
      progressAt, List.filter]

/-! ## Claim C9 — resolver determinism -/

/-- Claim C9, amended: the resolver's output is a function of the scene, the
query time and the puck position left by the previous call; it is independent
of that previous position — hence of call history — whenever the query time
is at or before scene start, or no event is active, or some active event is a
puck animation.  (As originally stated — the output is a function of
`(scene, globalTime)` alone for every scene — the claim fails: when only
non-puck events are active the position of the previous call is returned
unchanged; see the counterexample.) -/
theorem claim_C9_resolver_determinism :
    ∀ (scene : Scene) (time : ℚ) (p q : ℚ × ℚ × ℚ),
      (time - scene.start ≤ 0 ∨
        scene.events.filter (activeAt (time - scene.start)) = [] ∨
        ∃ e ∈ scene.events.filter (activeAt (time - scene.start)),
          e.action = "animate_puck_3d") →
      updateSceneAtTime scene time p = updateSceneAtTime scene time q := by
  intro scene time p q h
  by_cases h0 : time - scene.start ≤ 0
  · simp [updateSceneAtTime, h0]
  · by_cases hl : scene.events.filter (activeAt (time - scene.start)) = []
    · rcases hle : (scene.events.filter
          (fun e => e.action = "animate_puck_3d")).getLast? with _ | le
      · simp [updateSceneAtTime, h0, hl, hle]
      · have hpk := getLast?_puckFilter_action _ _ hle
        simp only [updateSceneAtTime, h0, hl, hle, if_false, List.isEmpty_nil,
          if_true]
        split
        · exact applyEventAnimation_puck p q le 1 hpk
        · rfl
    · have hact : ∃ e ∈ scene.events.filter (activeAt (time - scene.start)),
          e.action = "animate_puck_3d" := by
        rcases h with h | h | h
        · exact absurd h h0
        · exact absurd h hl
        · exact h
      simp only [updateSceneAtTime, h0, if_false]
      have hne : ¬ (scene.events.filter
          (activeAt (time - scene.start))).isEmpty := by
        simpa [List.isEmpty_iff] using hl
      simp only [hne, if_false]
      exact foldl_applyEvent_indep _ _ p q hact

/-- Claim C9, witness: inside the puck event of `holdScene` the output does
not depend on the previously held position. -/
theorem claim_C9_witness :
    updateSceneAtTime holdScene 3 restPos =
      updateSceneAtTime holdScene 3 (5, 5, 5) :=
  claim_C9_resolver_determinism holdScene 3 restPos (5, 5, 5)
    (Or.inr (Or.inr (by norm_num [holdScene, holdEvent, activeAt, effDur,
      jsOr, List.filter])))

/-- Claim C9, counterexample to the original statement: querying
`puckVectorScene` at global time `5.5` (only the vector event active) returns
whatever position the previous call left, so the same `(scene, time)` query
yields `5` after a call at time `0.5` but `10` after a call at time `20` —
the resolver has memory of prior calls. -/
theorem claim_C9_counterexample :
    updateSceneAtTime puckVectorScene (11/2)
        (updateSceneAtTime puckVectorScene (1/2) restPos) ≠
      updateSceneAtTime puckVectorScene (11/2)
        (updateSceneAtTime puckVectorScene 20 restPos) := by
  have hs : ("animate_vector_3d" : String) ≠ "animate_puck_3d" := by decide
  have h1 : updateSceneAtTime puckVectorScene (1/2) restPos = (5, 1/10, 0) := by
    norm_num [updateSceneAtTime, puckVectorScene, earlyPuckEvent, vectorEvent,
      straightParams, restPos, activeAt, effDur, jsOr, applyEventAnimation,
      progressAt, List.filter, hs]
  have h2 : updateSceneAtTime puckVectorScene 20 restPos = (10, 1/10, 0) := by
    norm_num [updateSceneAtTime, puckVectorScene, earlyPuckEvent, vectorEvent,
      straightParams, restPos, activeAt, effDur, jsOr, applyEventAnimation,
      progressAt, List.filter, hs]
  have h3 : ∀ p : ℚ × ℚ × ℚ,
      updateSceneAtTime puckVectorScene (11/2) p = p := by
    intro p
    norm_num [updateSceneAtTime, puckVectorScene, earlyPuckEvent, vectorEvent,
      straightParams, restPos, activeAt, effDur, jsOr, applyEventAnimation,
      progressAt, List.filter, hs]
  rw [h1, h2, h3, h3]
  norm_num

/-! ## Claim C10 — falsy duration default -/

/-- Claim C10, confirmed: the `duration || 1.0` coercion treats a present
`duration: 0` exactly like an absent duration — the defaulted window length
is `1.0`, the active window is `[t, t + 1]`, the progress is computed over
one second, and erasing every literal zero duration of a scene leaves the
resolver's output unchanged at every time and prior position. -/
theorem claim_C10_falsy_duration_default :
    (∀ e : VisualEvent, e.duration = some 0 →
      effDur e = 1 ∧ zeroDurToNone e = { e with duration := none } ∧
      (∀ rt : ℚ, activeAt rt e =
        (decide (e.t ≤ rt) && decide (rt ≤ e.t + 1))) ∧
      (∀ rt : ℚ, progressAt rt e = max 0 (min 1 (rt - e.t)))) ∧
    (∀ (s : Scene) (time : ℚ) (p : ℚ × ℚ × ℚ),
      updateSceneAtTime (sceneZeroDurToNone s) time p =
        updateSceneAtTime s time p) := by
  constructor
  · intro e h
    have h1 : effDur e = 1 := by simp [effDur, jsOr, h]
    refine ⟨h1, ?_, ?_, ?_⟩
    · simp [zeroDurToNone, h]
    · intro rt; rw [activeAt, h1]
    · intro rt; rw [progressAt, h1, div_one]
  · exact updateSceneAtTime_zeroDurToNone

/-- Claim C10, witness: the zero-duration event `zeroDurEvent` has defaulted
window length `1.0` and is interchangeable with its duration-free variant. -/
theorem claim_C10_witness :
    effDur zeroDurEvent = 1 ∧
    zeroDurToNone zeroDurEvent = { zeroDurEvent with duration := none } ∧
    (∀ rt : ℚ, activeAt rt zeroDurEvent =
      (decide (zeroDurEvent.t ≤ rt) && decide (rt ≤ zeroDurEvent.t + 1))) ∧
    (∀ rt : ℚ, progressAt rt zeroDurEvent =
      max 0 (min 1 (rt - zeroDurEvent.t))) :=
  claim_C10_falsy_duration_default.1 zeroDurEvent rfl

/-! ## Claim C4 — the validator's acceptance condition -/

/-- Claim C4, amended: the validator accepts a spec exactly when the five
temporal rules hold *and* every scene passes the structural field
constraints (built-in type, non-negative `start` and `end`, non-negative
event offsets); in particular the spec with `durationTarget = 50` is
rejected.  (As originally stated — acceptance iff the five rules alone — the
claim fails; see the counterexample.) -/
theorem claim_C4_validator_acceptance :
    (∀ s : VideoSpec, videoSpecValid s = true ↔
      (specFiveRules s = true ∧ s.scenes.all sceneStructOk = true)) ∧
    videoSpecValid lowDurationSpec = false := by
  constructor
  · intro s
    simp only [videoSpecValid, specFiveRules, sceneValid, sceneStructOk,
      Bool.and_eq_true, List.all_eq_true, decide_eq_true_eq,
      Bool.not_eq_true', List.isEmpty_eq_false, List.isEmpty_iff,
      ← List.length_pos_iff_ne_nil]
    constructor
    · rintro ⟨⟨⟨⟨⟨h1, h2⟩, h3⟩, h4⟩, h5⟩, h6⟩
      refine ⟨⟨⟨⟨⟨⟨h1, h2⟩, by omega⟩, ?_⟩, h5⟩, h6⟩, ?_⟩
      · intro sc hsc; exact (h4 sc hsc).2
      · intro sc hsc; exact (h4 sc hsc).1
    · rintro ⟨⟨⟨⟨⟨⟨h1, h2⟩, h3⟩, h4⟩, h5⟩, h6⟩, h7⟩
      refine ⟨⟨⟨⟨⟨h1, h2⟩, by omega⟩, ?_⟩, h5⟩, h6⟩
      intro sc hsc; exact ⟨h7 sc hsc, h4 sc hsc⟩
  · norm_num [videoSpecValid, lowDurationSpec]

/-- Claim C4, counterexample to the original statement: `negativeStartSpec`
satisfies all five temporal rules yet the validator rejects it (its scene
starts at `-1`, violating `z.number().min(0)`), so acceptance is not
equivalent to the five rules alone. -/
theorem claim_C4_counterexample :
    specFiveRules negativeStartSpec = true ∧
    videoSpecValid negativeStartSpec = false := by
  constructor
  · norm_num [specFiveRules, negativeStartSpec, scenesSortedByStart,
      pairwiseNoOverlap, lastSceneWithinTarget]
  · norm_num [videoSpecValid, negativeStartSpec, sceneValid]

/-! ## Claim C2 — scene types are a closed enum -/

/-- Claim C2, amended: the scene `type` category is a *closed* variant set —
every spec the validator accepts has all its scene types among
`intro`/`skill1`/`skill2`/`summary`, so a spec with a custom type is never
accepted, temporal invariants notwithstanding.  (As originally stated — some
temporally valid spec with a custom scene type is accepted — the claim
fails; see the counterexample.) -/
theorem claim_C2_closed_scene_types :
    ∀ s : VideoSpec, videoSpecValid s = true →
      ∀ sc ∈ s.scenes, sceneTypeValid sc.type = true := by
  intro s hs sc hsc
  simp only [videoSpecValid, Bool.and_eq_true, List.all_eq_true] at hs
  have := hs.1.1.2 sc hsc
  simp only [sceneValid, Bool.and_eq_true] at this
  exact this.1.1.1.1

/-- Claim C2, witness: `acceptedSpec` is accepted, so its scene's type is
one of the built-in categories. -/
theorem claim_C2_witness : sceneTypeValid introScene.type = true :=
  claim_C2_closed_scene_types acceptedSpec (by
    have ht : sceneTypeValid "intro" = true := by decide
    norm_num [videoSpecValid, acceptedSpec, introScene, sceneValid,
      ht, visualEventValid, scenesSortedByStart,
      pairwiseNoOverlap, lastSceneWithinTarget])
    introScene (by simp [acceptedSpec])

/-- Claim C2, counterexample to the original statement: `customTypeSpec`
satisfies every temporal rule, its scene type `outro` is outside the
built-in categories, and the validator rejects it. -/
theorem claim_C2_counterexample :
    specFiveRules customTypeSpec = true ∧
    sceneTypeValid "outro" = false ∧
    videoSpecValid customTypeSpec = false := by
  refine ⟨?_, ?_, ?_⟩
  · norm_num [specFiveRules, customTypeSpec, scenesSortedByStart,
      pairwiseNoOverlap, lastSceneWithinTarget]
  · decide
  · have ht : sceneTypeValid "outro" = false := by decide
    norm_num [videoSpecValid, customTypeSpec, sceneValid, ht]

/-! ## Claims C3 and C7 — the Sync Validator -/

/-- The diagnostics the code pushes coincide, pair by pair in the *given*
entry order, with the claim's per-pair description (overlap exactly when the
next start is strictly before the previous end, large gap exactly when the
gap exceeds two seconds). -/
theorem syncDiags_eq_claimDiags :
    ∀ segs : List (String × AudioSegment), syncDiags segs = claimDiags segs := by
  intro segs
  induction segs with
  | nil => rfl
  | cons a rest ih =>
      rcases rest with _ | ⟨b, rest'⟩
      · rfl
      · simp only [syncDiags, claimDiags] at ih ⊢
        rw [ih]
        congr 1
        rw [claimPairDiag]
        by_cases hb : b.2.start < a.2.end_
        · rw [if_pos hb, if_pos (show b.2.start - a.2.end_ < 0 by linarith)]
          rw [abs_of_neg (show b.2.start - a.2.end_ < 0 by linarith)]
          congr 1
          ring_nf
        · rw [if_neg hb,
            if_neg (show ¬ b.2.start - a.2.end_ < 0 by
              simp only [not_lt] at hb ⊢; linarith)]

/-- Claim C3, amended: `validateSync` walks the segment map's entries in
their insertion order — it never sorts by `start`.  Over that order it
reports, for each adjacent pair, an overlap error exactly when the next
entry's start is strictly before the previous entry's end and a large-gap
diagnostic exactly when the gap exceeds `2.0` seconds; gaps within
`[0, 2.0]` produce no diagnostic, `valid` is true iff there are zero
diagnostics, and the function is total.  For maps whose insertion order
already agrees with the `start` order this coincides with the claim as
stated.  (As originally stated — the result is computed over the segments
sorted by `start` — the claim fails; see the counterexample.) -/
theorem claim_C3_sync_validator_insertion_order :
    ∀ segments : List (String × AudioSegment),
      (validateSync segments).2 = claimDiags segments ∧
      ((validateSync segments).1 = true ↔ (validateSync segments).2 = []) := by
  intro segments
  refine ⟨syncDiags_eq_claimDiags segments, ?_⟩
  simp [validateSync, List.isEmpty_iff]

/-- Claim C3, counterexample to the original statement: with insertion order
`a = [5, 6]`, `b = [0, 1]` the code reports an overlap (comparing the pair
in insertion order), while over the segments sorted by `start` the same pair
is a `4`-second large gap and no overlap exists. -/
theorem claim_C3_counterexample :
    validateSync unsortedSegs = (false, [SyncDiag.overlap "a" "b" 6]) ∧
    validateSyncSortedSpec unsortedSegs =
      (false, [SyncDiag.largeGap "b" "a" 4]) ∧
    validateSync unsortedSegs ≠ validateSyncSortedSpec unsortedSegs := by
  refine ⟨?_, ?_, ?_⟩
  · norm_num [validateSync, syncDiags, unsortedSegs]
  · norm_num [validateSyncSortedSpec, claimDiags, claimPairDiag, unsortedSegs,
      List.mergeSort]
  · norm_num [validateSync, syncDiags, validateSyncSortedSpec, claimDiags,
      claimPairDiag, unsortedSegs, List.mergeSort]
    exact fun h => SyncDiag.noConfusion h

/-- Claim C7, confirmed: the overlap vector (`chunk2` starting `0.5` seconds
before `chunk1` ends) is invalid with at least one error; the vector with
exact `1.5`-second gaps is valid with no errors. -/
theorem claim_C7_sync_vectors :
    (validateSync overlapSegs).1 = false ∧
    1 ≤ (validateSync overlapSegs).2.length ∧
    validateSync gapSegs = (true, []) := by
  refine ⟨?_, ?_, ?_⟩ <;>
    norm_num [validateSync, syncDiags, overlapSegs, gapSegs]

/-! ## Claims C5 and C6 — the Narration Timing Resolver -/

/-- The synthesis loop under an always-succeeding oracle with positive
durations: it succeeds, keys the segments by the chunk list in order, starts
at the cursor, gives every segment positive length, and pads adjacent
segments by exactly `1.5` seconds. -/
theorem synthChunks_ok (tts : Nat → String → String → Option (String × ℚ))
    (voice : String)
    (h : ∀ i text, ∃ path d, tts i text voice = some (path, d) ∧ 0 < d) :
    ∀ (chunks : List (Nat × Nat × String)) (i : Nat) (t : ℚ),
      ∃ segs, synthChunks tts voice chunks i t = .ok segs ∧
        segs.map Prod.fst = chunks.map (fun c => chunkId c.1 c.2.1) ∧
        (∀ s0 ∈ segs.head?, s0.2.start = t) ∧
        (∀ s ∈ segs, s.2.start < s.2.end_) ∧
        List.Chain' (fun a b => b.2.start = a.2.end_ + 3/2) segs := by
  intro chunks
  induction chunks with
  | nil =>
      intro i t
      exact ⟨[], rfl, rfl, by simp, by simp, by simp⟩
  | cons c rest ih =>
      intro i t
      obtain ⟨si, ci, text⟩ := c
      obtain ⟨path, d, htts, hd⟩ := h i text
      obtain ⟨segs, hok, hkeys, hhead, hdur, hchain⟩ := ih (i + 1) (t + d + 3/2)
      refine ⟨(chunkId si ci, ⟨path, t, t + d⟩) :: segs, ?_, ?_, ?_, ?_, ?_⟩
      · simp [synthChunks, htts, hok]
      · simp [hkeys]
      · simp
      · intro s hs
        rcases List.mem_cons.mp hs with rfl | hs
        · simpa using hd
        · exact hdur s hs
      · rw [List.chain'_cons']
        refine ⟨?_, hchain⟩
        intro b hb
        have hb' := hhead b hb
        rw [hb']

/-- Exact `1.5`-second padding together with positive segment lengths makes
the segment starts strictly increasing. -/
theorem chain'_pad_imp_lt (segs : List (String × AudioSegment))
    (hpad : List.Chain' (fun a b => b.2.start = a.2.end_ + 3/2) segs)
    (hdur : ∀ s ∈ segs, s.2.start < s.2.end_) :
    List.Chain' (fun a b => a.2.start < b.2.start) segs := by
  induction segs with
  | nil => simp
  | cons a rest ih =>
      rcases rest with _ | ⟨b, rest'⟩
      · simp
      · rw [List.chain'_cons] at hpad ⊢
        have ha := hdur a (List.mem_cons_self a _)
        refine ⟨by rw [hpad.1]; linarith, ?_⟩
        exact ih hpad.2 (fun s hs => hdur s (List.mem_cons_of_mem a hs))

/-- Claim C5, confirmed: under an oracle giving every chunk a strictly
positive duration, the resolver visits chunks in scene order then chunk
order from a cursor at `0`, emits `[t, t + d]` segments keyed
`scene{sceneIndex}_chunk{chunkIndex}`, advances the cursor by `d + 1.5`, so
segment starts are strictly increasing with
`segments[i].end + 1.5 = segments[i+1].start` for every adjacent pair; the
specification's scenario (durations `[2.0, 1.5]`) resolves to
`{scene0_chunk0: [0, 2.0], scene0_chunk1: [3.5, 5.0]}`. -/
theorem claim_C5_narration_timing :
    (∀ (spec : VideoSpec) (tts : Nat → String → String → Option (String × ℚ)),
      (∀ i text, ∃ path d,
        tts i text spec.style.voice = some (path, d) ∧ 0 < d) →
      ∃ segs, synthesizeNarration spec tts = .ok segs ∧
        segs.map Prod.fst = (allChunks spec).map (fun c => chunkId c.1 c.2.1) ∧
        (∀ s0 ∈ segs.head?, s0.2.start = 0) ∧
        (∀ s ∈ segs, s.2.start < s.2.end_) ∧
        List.Chain' (fun a b => b.2.start = a.2.end_ + 3/2) segs ∧
        List.Chain' (fun a b => a.2.start < b.2.start) segs) ∧
    synthesizeNarration scenarioSpec scenarioTts =
      .ok [("scene0_chunk0", ⟨"audio0.mp3", 0, 2⟩),
           ("scene0_chunk1", ⟨"audio1.mp3", 7/2, 5⟩)] := by
  constructor
  · intro spec tts h
    obtain ⟨segs, hok, hkeys, hhead, hdur, hchain⟩ :=
      synthChunks_ok tts spec.style.voice h (allChunks spec) 0 0
    exact ⟨segs, hok, hkeys, hhead, hdur, hchain,
      chain'_pad_imp_lt segs hchain hdur⟩
  · have hc0 : chunkId 0 0 = "scene0_chunk0" := rfl
    have hc1 : chunkId 0 1 = "scene0_chunk1" := rfl
    norm_num [synthesizeNarration, synthChunks, scenarioSpec, scenarioTts,
      allChunks, hc0, hc1, defaultStyle, List.enum]

/-- Claim C5, witness: the universal part applied to the scenario spec and
its duration oracle. -/
theorem claim_C5_witness :
    ∃ segs, synthesizeNarration scenarioSpec scenarioTts = .ok segs ∧
      segs.map Prod.fst =
        (allChunks scenarioSpec).map (fun c => chunkId c.1 c.2.1) ∧
      (∀ s0 ∈ segs.head?, s0.2.start = 0) ∧
      (∀ s ∈ segs, s.2.start < s.2.end_) ∧
      List.Chain' (fun a b => b.2.start = a.2.end_ + 3/2) segs ∧
      List.Chain' (fun a b => a.2.start < b.2.start) segs :=
  claim_C5_narration_timing.1 scenarioSpec scenarioTts (fun i text => by
    by_cases h : i = 0
    · exact ⟨"audio0.mp3", 2, by simp [scenarioTts, h], by norm_num⟩
    · exact ⟨"audio1.mp3", 3/2, by simp [scenarioTts, h], by norm_num⟩)

/-- The synthesis loop aborts on the first failing chunk with an error
naming that chunk. -/
theorem synthChunks_error (tts : Nat → String → String → Option (String × ℚ))
    (voice : String) :
    ∀ (chunks : List (Nat × Nat × String)) (i : Nat) (t : ℚ) (k : Nat)
      (si ci : Nat) (text : String),
      chunks.get? k = some (si, ci, text) →
      (∀ j, j < k → ∀ cj, chunks.get? j = some cj →
        (tts (i + j) cj.2.2 voice).isSome = true) →
      tts (i + k) text voice = none →
      synthChunks tts voice chunks i t =
        .error ("Failed to synthesize chunk " ++ chunkId si ci) := by
  intro chunks
  induction chunks with
  | nil =>
      intro i t k si ci text hk
      simp [List.get?] at hk
  | cons c rest ih =>
      intro i t k si ci text hk hpre hfail
      obtain ⟨sj, cj, textj⟩ := c
      cases k with
      | zero =>
          simp only [List.get?] at hk
          obtain ⟨rfl, rfl, rfl⟩ := Prod.mk.injEq .. ▸ (Option.some.injEq .. ▸ hk)
          rw [Nat.add_zero] at hfail
          simp [synthChunks, hfail]
      | succ k' =>
          have h0 := hpre 0 (Nat.succ_pos k') (sj, cj, textj) rfl
          obtain ⟨⟨path, d⟩, hsome⟩ := Option.isSome_iff_exists.mp h0
          rw [Nat.add_zero] at hsome
          have hfail' : tts (i + 1 + k') text voice = none := by
            have harith : i + 1 + k' = i + (k' + 1) := by omega
            rw [harith]; exact hfail
          have hrest := ih (i + 1) (t + d + 3/2) k' si ci text
            (by simpa [List.get?] using hk)
            (fun j hj cjj hcj => by
              have hx := hpre (j + 1) (Nat.succ_lt_succ hj) cjj
                (by simpa [List.get?] using hcj)
              have harith : i + (j + 1) = i + 1 + j := by omega
              rw [harith] at hx
              exact hx)
            hfail'
          simp [synthChunks, hsome, hrest]

/-- Claim C6, confirmed: if the first failing chunk is at flattened position
`k`, the whole resolution aborts with an error naming that chunk — the
result is the error, the exposed `audioSegments` ref stays empty, and no
partial segment map is ever returned. -/
theorem claim_C6_failure_atomicity :
    ∀ (spec : VideoSpec) (tts : Nat → String → String → Option (String × ℚ))
      (k si ci : Nat) (text : String),
      (allChunks spec).get? k = some (si, ci, text) →
      (∀ j, j < k → ∀ cj, (allChunks spec).get? j = some cj →
        (tts j cj.2.2 spec.style.voice).isSome = true) →
      tts k text spec.style.voice = none →
      synthesizeNarration spec tts =
        .error ("Failed to synthesize chunk " ++ chunkId si ci) ∧
      audioSegmentsAfter spec tts = [] ∧
      ∀ segs, synthesizeNarration spec tts ≠ .ok segs := by
  intro spec tts k si ci text hk hpre hfail
  have herr : synthesizeNarration spec tts =
      .error ("Failed to synthesize chunk " ++ chunkId si ci) :=
    synthChunks_error tts spec.style.voice (allChunks spec) 0 0 k si ci text hk
      (fun j hj cj hcj => by simpa using hpre j hj cj hcj)
      (by simpa using hfail)
  refine ⟨herr, ?_, ?_⟩
  · simp [audioSegmentsAfter, herr]
  · intro segs hok
    rw [herr] at hok
    exact Except.noConfusion hok

/-- Claim C6, witness: the scenario spec under the oracle that fails on its
second chunk aborts, names `scene0_chunk1`, and exposes no segments. -/
theorem claim_C6_witness :
    synthesizeNarration scenarioSpec failingTts =
      .error ("Failed to synthesize chunk " ++ chunkId 0 1) ∧
    audioSegmentsAfter scenarioSpec failingTts = [] ∧
    ∀ segs, synthesizeNarration scenarioSpec failingTts ≠ .ok segs :=
  claim_C6_failure_atomicity scenarioSpec failingTts 1 0 1 "Let us begin" rfl
    (fun j hj cj _ => by
      have hj0 : j = 0 := by omega
      subst hj0
      simp [failingTts])
    rfl

/-! ## Claim C8 — subtitle generation -/

/-- Concatenation distributes over `strJoin`. -/
theorem strJoin_append :
    ∀ l1 l2 : List String, strJoin (l1 ++ l2) = strJoin l1 ++ strJoin l2 := by
  intro l1 l2
  induction l1 with
  | nil => simp [strJoin]
  | cons a rest ih => simp [strJoin, ih, String.append_assoc]

/-- Joining a flattened list of lists joins the per-list joins. -/
theorem strJoin_flatten :
    ∀ ll : List (List String), strJoin ll.flatten = strJoin (ll.map strJoin) := by
  intro ll
  induction ll with
  | nil => rfl
  | cons l rest ih => simp [strJoin, strJoin_append, ih]

/-- The inner chunk fold of `generateSubtitles` appends exactly the chunk
cues of one scene. -/
theorem foldl_cue_inner (sc : Nat × Scene) :
    ∀ (l : List (Nat × String)) (init : String),
      l.foldl (fun vtt ch =>
        let chunkDuration :=
          (sc.2.end_ - sc.2.start) / (sc.2.narration.length : ℚ)
        let start := sc.2.start + (ch.1 : ℚ) * chunkDuration
        let «end» := start + chunkDuration
        vtt ++ (toString (sc.1 + 1) ++ "." ++ toString (ch.1 + 1) ++ "\n")
            ++ (formatVTTTime start ++ " --> " ++ formatVTTTime «end» ++ "\n")
            ++ (ch.2 ++ "\n\n")) init
      = init ++ strJoin (l.map (cueString sc)) := by
  intro l
  induction l with
  | nil => intro init; simp [strJoin]
  | cons ch rest ih =>
      intro init
      simp only [List.foldl_cons, List.map_cons, strJoin]
      rw [ih]
      simp [cueString, String.append_assoc]

/-- The outer scene fold of `generateSubtitles` appends the cues of every
scene in order. -/
theorem foldl_cue_outer :
    ∀ (l : List (Nat × Scene)) (init : String),
      l.foldl (fun vtt sc =>
        sc.2.narration.enum.foldl (fun vtt ch =>
          let chunkDuration :=
            (sc.2.end_ - sc.2.start) / (sc.2.narration.length : ℚ)
          let start := sc.2.start + (ch.1 : ℚ) * chunkDuration
          let «end» := start + chunkDuration
          vtt ++ (toString (sc.1 + 1) ++ "." ++ toString (ch.1 + 1) ++ "\n")
              ++ (formatVTTTime start ++ " --> " ++ formatVTTTime «end» ++ "\n")
              ++ (ch.2 ++ "\n\n")) vtt) init
      = init ++ strJoin (l.map
          (fun sc => strJoin (sc.2.narration.enum.map (cueString sc)))) := by
  intro l
  induction l with
  | nil => intro init; simp [strJoin]
  | cons sc rest ih =>
      intro init
      simp only [List.foldl_cons, List.map_cons, strJoin]
      rw [foldl_cue_inner sc, ih, String.append_assoc]

/-- The generated WebVTT text is the header followed by the claim's cue
list, in scene order then chunk order. -/
theorem generateSubtitles_eq (spec : VideoSpec) :
    generateSubtitles spec = "WEBVTT\n\n" ++ strJoin (claimCues spec) := by
  unfold generateSubtitles
  rw [foldl_cue_outer spec.scenes.enum]
  unfold claimCues
  rw [strJoin_flatten, List.map_map]
  rfl

/-- Claim C8, confirmed: for every spec the generated subtitles are the
`WEBVTT` header followed, in scene order then chunk order, by the cues with
id `{sceneIndex+1}.{chunkIndex+1}`, start
`scene.start + chunkIndex * (scene.end - scene.start) / narrationCount`, end
one chunk-duration later, both `formatVTTTime`-formatted on a
`start --> end` range line; the derivation never reads the Audio Segment
Map, and the server-side `generateWebVTT` produces the same text. -/
theorem claim_C8_subtitle_cues :
    (∀ spec : VideoSpec, generateSubtitles spec =
      "WEBVTT\n\n" ++ strJoin (claimCues spec)) ∧
    (∀ (spec : VideoSpec) (segs : Option (List (String × AudioSegment))),
      generateSubtitles { spec with audioSegments := segs } =
        generateSubtitles spec) ∧
    (∀ spec : VideoSpec, generateWebVTT spec = generateSubtitles spec) :=
  ⟨generateSubtitles_eq, fun _ _ => rfl, fun _ => rfl⟩

end Synapvid
